import Mathlib

/-!
Verification of the guarded BRAM accessor in src/vitis-example.c.

The program pokes four memory-mapped 32-bit control registers at fixed
addresses and accesses a block RAM (BRAM) peripheral through an enable
gate held in the fourth register.  We embed the memory-mapped hardware
as an explicit state (a map from byte addresses to register values and
a map from byte addresses to 128-bit BRAM words), and each accessor as
a pure function from that state to an updated state together with the
trace of hardware accesses it performs, in program order.

C machine integers are embedded as Nat reduced modulo the width of the
C type at the points where the C performs a conversion: function
parameters of type uint128_t and unsigned int are reduced at entry,
and a 128-bit load yields its value modulo two to the 128.
-/

namespace VitisExample

/-- Base address for AXI-lite control: SLV_REG0 in the source. -/
def SLV_REG0 : Nat := 0xA0000000

/-- Address of the second control register, SLV_REG0 + 4. -/
def SLV_REG1 : Nat := SLV_REG0 + 4

/-- Address of the third control register, SLV_REG0 + 8. -/
def SLV_REG2 : Nat := SLV_REG0 + 8

/-- Address of the fourth control register (the BRAM access-enable gate),
SLV_REG0 + 12. -/
def SLV_REG3 : Nat := SLV_REG0 + 12

/-- Base address for accessing device BRAM: BRAM_BASE in the source. -/
def BRAM_BASE : Nat := 0xB0000000

/-- The externally visible memory-mapped hardware state: the 32-bit
control registers and the BRAM cells, both keyed by byte address. -/
structure MachState where
  regs : Nat → Nat
  mem : Nat → Nat

/-- One hardware access performed by the program: a store to a control
register, a 128-bit store to BRAM, or a 128-bit load from BRAM. -/
inductive Event where
  | regStore (addr : Nat) (v : Nat)
  | memStore (addr : Nat) (v : Nat)
  | memLoad (addr : Nat) (v : Nat)
deriving DecidableEq

/-- Byte address of BRAM slot bram_addr: bram_ptr has element type
uint128_t (16 bytes), so bram_ptr[bram_addr] names the byte address
BRAM_BASE + 16 * bram_addr.  The parameter has C type unsigned int,
so it is reduced modulo two to the 32. -/
def bramSlotAddr (bram_addr : Nat) : Nat := BRAM_BASE + 16 * (bram_addr % 2 ^ 32)

/-- Embedding of bram_write from src/vitis-example.c (lines 50 to 56):
store 1 to SLV_REG3, store the value into bram_ptr[bram_addr], store 0
to SLV_REG3.  Returns the final state and the access trace in program
order. -/
def bram_write (value : Nat) (bram_addr : Nat) (s : MachState) : MachState × List Event :=
  let v := value % 2 ^ 128
  let a := bramSlotAddr bram_addr
  let s1 : MachState := { s with regs := Function.update s.regs SLV_REG3 1 }
  let s2 : MachState := { s1 with mem := Function.update s1.mem a v }
  let s3 : MachState := { s2 with regs := Function.update s2.regs SLV_REG3 0 }
  (s3, [Event.regStore SLV_REG3 1, Event.memStore a v, Event.regStore SLV_REG3 0])

/-- Embedding of bram_read from src/vitis-example.c (lines 59 to 67):
store 1 to SLV_REG3, load the 128-bit value at bram_ptr[bram_addr],
store 0 to SLV_REG3, return the loaded value.  Returns the value, the
final state and the access trace in program order. -/
def bram_read (bram_addr : Nat) (s : MachState) : Nat × MachState × List Event :=
  let a := bramSlotAddr bram_addr
  let s1 : MachState := { s with regs := Function.update s.regs SLV_REG3 1 }
  let v := s1.mem a % 2 ^ 128
  let s2 : MachState := { s1 with regs := Function.update s1.regs SLV_REG3 0 }
  (v, s2, [Event.regStore SLV_REG3 1, Event.memLoad a v, Event.regStore SLV_REG3 0])

/-- Embedding of createUint128_t from src/vitis-example.c (line 70):
((uint128_t)high << 64) | low, where high and low have C type uint64_t
(reduced at entry) and the result has C type uint128_t. -/
def createUint128_t (high low : Nat) : Nat :=
  (((high % 2 ^ 64) <<< 64) ||| (low % 2 ^ 64)) % 2 ^ 128

/-- Does this event access BRAM data (a 128-bit store or load)? -/
def isDataAccess : Event → Bool
  | Event.regStore _ _ => false
  | Event.memStore _ _ => true
  | Event.memLoad _ _ => true

/-- Kind tag of a hardware access, forgetting its address and value:
0 for a control-register store, 1 for a BRAM store, 2 for a BRAM load. -/
def eventKind : Event → Nat
  | Event.regStore _ _ => 0
  | Event.memStore _ _ => 1
  | Event.memLoad _ _ => 2

/-- A concrete all-zero hardware state, used to instantiate theorems. -/
def zeroState : MachState := { regs := fun _ => 0, mem := fun _ => 0 }

/-- Writing v % 2 to the 128 at a slot and reading the same slot yields
v % 2 to the 128: the update is read back directly. -/
theorem read_after_write_mod (v i : Nat) (s : MachState) :
    (bram_read i ((bram_write v i s).1)).1 = v % 2 ^ 128 := by
  simp [bram_read, bram_write]

/-- Claim C1: for every 128-bit value v and every index i, bram_write v i
followed immediately by bram_read i on the resulting state, with no
intervening accesses, returns exactly v. -/
theorem bram_write_read_roundtrip (v i : Nat) (s : MachState) (hv : v < 2 ^ 128) :
    (bram_read i ((bram_write v i s).1)).1 = v := by
  rw [read_after_write_mod, Nat.mod_eq_of_lt hv]

/-- Witness for claim C1 at v = 3, i = 0 on the all-zero state. -/
theorem bram_write_read_roundtrip_witness :
    (3 : Nat) < 2 ^ 128 ∧ (bram_read 0 ((bram_write 3 0 zeroState).1)).1 = 3 :=
  ⟨by norm_num, bram_write_read_roundtrip 3 0 zeroState (by norm_num)⟩

/-- Claim C2: for 64-bit high and low, createUint128_t high low equals
(high <<< 64) ||| low, with high occupying the upper 64 bits (the
quotient by 2 to the 64 is high and the remainder is low). -/
theorem createUint128_t_spec (high low : Nat) (hh : high < 2 ^ 64) (hl : low < 2 ^ 64) :
    createUint128_t high low = (high <<< 64) ||| low ∧
    createUint128_t high low / 2 ^ 64 = high ∧
    createUint128_t high low % 2 ^ 64 = low := by
  have hor : (high <<< 64) ||| low = 2 ^ 64 * high + low := by
    rw [Nat.shiftLeft_eq, Nat.mul_comm, (Nat.mul_add_lt_is_or hl high).symm]
  have hlt : 2 ^ 64 * high + low < 2 ^ 128 := by
    have h1 : 2 ^ 64 * high ≤ 2 ^ 64 * (2 ^ 64 - 1) := by
      exact Nat.mul_le_mul_left _ (Nat.le_sub_one_of_lt hh)
    calc 2 ^ 64 * high + low < 2 ^ 64 * (2 ^ 64 - 1) + 2 ^ 64 := by omega
      _ = 2 ^ 128 := by norm_num
  have hdef : createUint128_t high low = (high <<< 64) ||| low := by
    unfold createUint128_t
    rw [Nat.mod_eq_of_lt hh, Nat.mod_eq_of_lt hl, hor, Nat.mod_eq_of_lt hlt]
  refine ⟨hdef, ?_, ?_⟩
  · rw [hdef, hor, Nat.add_comm, Nat.add_mul_div_left _ _ (by norm_num : 0 < 2 ^ 64),
      Nat.div_eq_of_lt hl, Nat.zero_add]
  · rw [hdef, hor, Nat.add_comm, Nat.add_mul_mod_self_left, Nat.mod_eq_of_lt hl]

/-- Witness for claim C2 at high = 1, low = 2: the result is
(1 <<< 64) ||| 2, as the spec requires. -/
theorem createUint128_t_spec_witness :
    (1 : Nat) < 2 ^ 64 ∧ (2 : Nat) < 2 ^ 64 ∧
    createUint128_t 1 2 = ((1 : Nat) <<< 64) ||| 2 :=
  ⟨by norm_num, by norm_num, (createUint128_t_spec 1 2 (by norm_num) (by norm_num)).1⟩

/-- Claim C3: on every call to bram_write or bram_read, the trace is
exactly a store of 1 to the enable register SLV_REG3, then one single
BRAM data access, then a store of 0 to SLV_REG3: the enable register
receives exactly the sequence [1, 0] and the data access happens
strictly between the two. -/
theorem enable_bracket (v i : Nat) (s : MachState) :
    (∃ e, isDataAccess e = true ∧
      (bram_write v i s).2 = [Event.regStore SLV_REG3 1, e, Event.regStore SLV_REG3 0]) ∧
    (∃ e, isDataAccess e = true ∧
      (bram_read i s).2.2 = [Event.regStore SLV_REG3 1, e, Event.regStore SLV_REG3 0]) := by
  exact ⟨⟨Event.memStore (bramSlotAddr i) (v % 2 ^ 128), rfl, rfl⟩,
    ⟨Event.memLoad (bramSlotAddr i) (s.mem (bramSlotAddr i) % 2 ^ 128), rfl, rfl⟩⟩

/-- Claim C4: bram_write and bram_read leave the control registers
SLV_REG0, SLV_REG1 and SLV_REG2 unchanged. -/
theorem control_regs_frame (v i : Nat) (s : MachState) :
    (bram_write v i s).1.regs SLV_REG0 = s.regs SLV_REG0 ∧
    (bram_write v i s).1.regs SLV_REG1 = s.regs SLV_REG1 ∧
    (bram_write v i s).1.regs SLV_REG2 = s.regs SLV_REG2 ∧
    (bram_read i s).2.1.regs SLV_REG0 = s.regs SLV_REG0 ∧
    (bram_read i s).2.1.regs SLV_REG1 = s.regs SLV_REG1 ∧
    (bram_read i s).2.1.regs SLV_REG2 = s.regs SLV_REG2 := by
  refine ⟨?_, ?_, ?_, ?_, ?_, ?_⟩ <;>
    simp [bram_write, bram_read, Function.update, SLV_REG0, SLV_REG1, SLV_REG2, SLV_REG3]

/-- Claim C5: bram_write v i stores v at byte address BRAM_BASE plus
16 times i, and bram_read i returns the 128-bit value held at that same
address. -/
theorem bram_addr_computation (v i : Nat) (s : MachState)
    (hv : v < 2 ^ 128) (hi : i < 2 ^ 32)
    (hm : s.mem (BRAM_BASE + 16 * i) < 2 ^ 128) :
    (bram_write v i s).1.mem (BRAM_BASE + 16 * i) = v ∧
    (bram_read i s).1 = s.mem (BRAM_BASE + 16 * i) := by
  constructor
  · simp only [bram_write, bramSlotAddr, Nat.mod_eq_of_lt hi, Nat.mod_eq_of_lt hv,
      Function.update_same]
  · simp only [bram_read, bramSlotAddr, Nat.mod_eq_of_lt hi, Nat.mod_eq_of_lt hm]

/-- Witness for claim C5 at v = 5, i = 0 on the all-zero state. -/
theorem bram_addr_computation_witness :
    (5 : Nat) < 2 ^ 128 ∧ (0 : Nat) < 2 ^ 32 ∧
    zeroState.mem (BRAM_BASE + 16 * 0) < 2 ^ 128 ∧
    (bram_write 5 0 zeroState).1.mem (BRAM_BASE + 16 * 0) = 5 ∧
    (bram_read 0 zeroState).1 = zeroState.mem (BRAM_BASE + 16 * 0) :=
  ⟨by norm_num, by norm_num, by norm_num [zeroState],
    (bram_addr_computation 5 0 zeroState (by norm_num) (by norm_num)
      (by norm_num [zeroState])).1,
    (bram_addr_computation 5 0 zeroState (by norm_num) (by norm_num)
      (by norm_num [zeroState])).2⟩

/-- Claim C6: every call to bram_write performs exactly three stores,
unconditionally: a store of 1 to the enable register, then the single
128-bit memory store of the value, then a store of 0 to the enable
register, in that strict order, and nothing else (in particular no
read-back of the enable register appears in the trace). -/
theorem bram_write_three_stores (v i : Nat) (s : MachState) :
    (bram_write v i s).2 =
      [Event.regStore SLV_REG3 1, Event.memStore (bramSlotAddr i) (v % 2 ^ 128),
        Event.regStore SLV_REG3 0] := rfl

/-- Claim C7: for every index, bram_write and bram_read perform the same
fixed three-step access sequence whose shape does not depend on the
index or the value (no branching, no bounds validation), and both are
total functions that always return normally (never an error). -/
theorem fixed_sequence_no_validation (v i j : Nat) (s : MachState) :
    ((bram_write v i s).2).map eventKind = [0, 1, 0] ∧
    ((bram_read i s).2.2).map eventKind = [0, 2, 0] ∧
    ((bram_write v i s).2).map eventKind = ((bram_write v j s).2).map eventKind ∧
    ((bram_read i s).2.2).map eventKind = ((bram_read j s).2.2).map eventKind :=
  ⟨rfl, rfl, rfl, rfl⟩

/-- Claim C8: bram_read holds no internal state between calls: from
identical external memory-mapped states (same registers and same BRAM
contents), two invocations with the same index return identical values,
whatever the history of prior calls that produced each state. -/
theorem bram_read_no_internal_state (i : Nat) (s1 s2 : MachState)
    (_hregs : s1.regs = s2.regs) (hmem : s1.mem = s2.mem) :
    (bram_read i s1).1 = (bram_read i s2).1 := by
  simp [bram_read, hmem]

/-- Witness for claim C8 at i = 0 on two copies of the all-zero state. -/
theorem bram_read_no_internal_state_witness :
    zeroState.regs = zeroState.regs ∧ zeroState.mem = zeroState.mem ∧
    (bram_read 0 zeroState).1 = (bram_read 0 zeroState).1 :=
  ⟨rfl, rfl, bram_read_no_internal_state 0 zeroState zeroState rfl rfl⟩

/-- Claim C9: after every completed call to bram_write or bram_read the
enable register SLV_REG3 holds 0, so the invariant that the enable gate
is cleared outside any accessor call is preserved by both operations. -/
theorem enable_cleared_after_call (v i : Nat) (s : MachState) :
    (bram_write v i s).1.regs SLV_REG3 = 0 ∧
    (bram_read i s).2.1.regs SLV_REG3 = 0 := by
  constructor <;> simp [bram_write, bram_read]

/-- Claim C10: for distinct indices i and j, bram_write v i leaves the
BRAM slot at index j unchanged. -/
theorem bram_write_other_slots_frame (v i j : Nat) (s : MachState)
    (hi : i < 2 ^ 32) (hj : j < 2 ^ 32) (hne : i ≠ j) :
    (bram_write v i s).1.mem (BRAM_BASE + 16 * j) = s.mem (BRAM_BASE + 16 * j) := by
  have hadd : BRAM_BASE + 16 * j ≠ bramSlotAddr i := by
    simp [bramSlotAddr, BRAM_BASE, Nat.mod_eq_of_lt hi]
    omega
  simp [bram_write, Function.update_noteq hadd]

/-- Witness for claim C10 at v = 9, i = 0, j = 1 on the all-zero state. -/
theorem bram_write_other_slots_frame_witness :
    (0 : Nat) < 2 ^ 32 ∧ (1 : Nat) < 2 ^ 32 ∧ (0 : Nat) ≠ 1 ∧
    (bram_write 9 0 zeroState).1.mem (BRAM_BASE + 16 * 1) =
      zeroState.mem (BRAM_BASE + 16 * 1) :=
  ⟨by norm_num, by norm_num, by norm_num,
    bram_write_other_slots_frame 9 0 1 zeroState (by norm_num) (by norm_num) (by norm_num)⟩

end VitisExample
